import Mathlib

/-
Verification of the BoltDepot supplier page-scraping module
(`inventree_part_import/suppliers/supplier_boltdepot.py`).

The module walks a parsed HTML document tree (BeautifulSoup) and decodes a
part record from a vendor product page.  We embed the document tree as a
simple inductive type, the BeautifulSoup navigation primitives used by the
module (`find`, `find_all`, `.contents`, `.get_text()`) as functions on that
tree, and each method of the `BoltDepot` class as a Lean function.  Code
paths that can raise a Python exception (out-of-range indexing such as
`contents[0]` or `category_path[-1]`, and division by zero) are embedded in
the `Except String` monad, with the error string naming the Python exception
class.  Prices are modelled as exact rationals.
-/

namespace BoltDepot

/-- A parsed HTML document node: either a text node (bs4 `NavigableString`)
or an element (bs4 `Tag`) with a name, attributes and children. -/
inductive Node where
  | text (s : String)
  | tag (name : String) (attrs : List (String × String)) (children : List Node)

/-- The children (`.contents` in bs4) of a node; a text node has none. -/
def Node.children : Node → List Node
  | .text _ => []
  | .tag _ _ cs => cs

/-- Whether the node is an element (`isinstance(x, Tag)` in the source). -/
def Node.isTag : Node → Bool
  | .text _ => false
  | .tag _ _ _ => true

mutual

/-- Model of `bs4.Tag.get_text()` on one node: concatenation of all text descendants. -/
def Node.getText : Node → String
  | .text s => s
  | .tag _ _ cs => getTextList cs

/-- Model of `get_text` concatenated over a list of nodes. -/
def getTextList : List Node → String
  | [] => ""
  | c :: cs => Node.getText c ++ getTextList cs

end

mutual

/-- All nodes of the subtree rooted at a node, in document (pre-)order. -/
def subtreeList : Node → List Node
  | .text s => [.text s]
  | .tag n a cs => .tag n a cs :: subtreeForest cs

/-- All nodes of the subtrees of a forest, in document (pre-)order. -/
def subtreeForest : List Node → List Node
  | [] => []
  | c :: cs => subtreeList c ++ subtreeForest cs

end

/-- The descendants of a node (excluding the node itself), in document
order — the search space of bs4 `find` / `find_all`. -/
def Node.descendants (n : Node) : List Node :=
  subtreeForest n.children

/-- Characters Python treats as whitespace in `str.strip()` / regex `\s`
(ASCII fragment). -/
def isPySpace (c : Char) : Bool :=
  c = ' ' || c = '\t' || c = '\n' || c = '\r' || c = '\x0b' || c = '\x0c'

/-- Python `str.strip()` (ASCII whitespace fragment). -/
def pyStrip (s : String) : String :=
  String.mk (((s.data.dropWhile isPySpace).reverse.dropWhile isPySpace).reverse)

/-- One pass of `re.sub(r"\s+", " ", ·)`: every maximal run of whitespace
becomes a single space.  The boolean records whether the previous character
was part of a whitespace run. -/
def collapseAux : Bool → List Char → List Char
  | _, [] => []
  | prevSpace, c :: rest =>
    if isPySpace c then
      if prevSpace then collapseAux true rest
      else ' ' :: collapseAux true rest
    else c :: collapseAux false rest

/-- Model of `re.sub(r"\s+", " ", s).strip()` from `_find_text`. -/
def collapseWs (s : String) : String :=
  pyStrip (String.mk (collapseAux false s.data))

/-- Python `str.lower()` (ASCII fragment, which is all the module compares). -/
def charLower (c : Char) : Char :=
  if 'A' ≤ c ∧ c ≤ 'Z' then Char.ofNat (c.toNat + 32) else c

/-- Python `str.lower()` on a whole string (ASCII fragment). -/
def strToLower (s : String) : String :=
  String.mk (s.data.map charLower)

/-- Python slicing `s[n:]`. -/
def strDropL (s : String) (n : Nat) : String :=
  String.mk (s.data.drop n)

/-- Python `s.replace(",", "")` — with a one-character pattern and empty
replacement this is exactly a character filter. -/
def pyReplaceComma (s : String) : String :=
  String.mk (s.data.filter (fun c => !(c = ',')))

/-- Whether `pat` occurs as a contiguous substring of `s` (Python `pat in s`). -/
def listContainsSub (pat : List Char) : List Char → Bool
  | [] => pat.isEmpty
  | c :: rest => pat.isPrefixOf (c :: rest) || listContainsSub pat rest

/-- Python `pat in s` on strings. -/
def strContains (s pat : String) : Bool :=
  listContainsSub pat.data s.data

/-- Value of a non-empty all-digit character list, `none` otherwise. -/
def digitsVal? (cs : List Char) : Option Nat :=
  if cs.isEmpty then none
  else if cs.all (fun c => c.isDigit) then
    some (cs.foldl (fun a c => 10 * a + (c.toNat - 48)) 0)
  else none

/-- Python `int(s)` on the plain decimal fragment (optional sign, digits,
surrounding whitespace); `none` models `ValueError`. -/
def pyInt (s : String) : Option Int :=
  match (pyStrip s).data with
  | '+' :: rest => (digitsVal? rest).map Int.ofNat
  | '-' :: rest => (digitsVal? rest).map (fun n => -(n : Int))
  | cs => (digitsVal? cs).map Int.ofNat

/-- Python `float(s)` on the finite decimal fragment (optional sign, digits
with at most one point, at least one digit, surrounding whitespace), read as
an exact rational; `none` models `ValueError`.  The value `ip.fp` is the
integer `ip*10^|fp| + fp` over the denominator `10^|fp|`. -/
def pyFloat (s : String) : Option ℚ :=
  let body : List Char → Option ℚ := fun cs =>
    let ip := cs.takeWhile (fun c => c.isDigit)
    let rest := cs.drop ip.length
    match rest with
    | [] =>
      match digitsVal? ip with
      | some n => some (Rat.divInt (Int.ofNat n) 1)
      | none => none
    | '.' :: fp =>
      if fp.all (fun c => c.isDigit) && !(ip.isEmpty && fp.isEmpty) then
        some (Rat.divInt
          (Int.ofNat ((digitsVal? ip).getD 0 * 10 ^ fp.length + (digitsVal? fp).getD 0))
          (Int.ofNat (10 ^ fp.length)))
      else none
    | _ => none
  match (pyStrip s).data with
  | '+' :: rest => body rest
  | '-' :: rest => (body rest).map (fun q => -q)
  | cs => body cs

/-- Exact division of a rational by an integer, written on the numerator and
denominator (for nonzero `n` this agrees with field division, see
`ratDivByInt_eq_div`). -/
def ratDivByInt (q : ℚ) (n : ℤ) : ℚ :=
  Rat.divInt q.num ((q.den : ℤ) * n)

/-- A rational times an integer, written on the numerator and denominator. -/
def ratMulInt (q : ℚ) (n : ℤ) : ℚ :=
  Rat.divInt (q.num * n) (q.den : ℤ)

/-- Round a rational to the nearest integer, ties to even — the rounding of
Python's builtin `round`.  For `q` with (positive) denominator `b` and
fractional part `r = q - ⌊q⌋`, the comparison of `r` with `1/2` is done as
the integer comparison of `2*b*r = 2*(num - ⌊q⌋*b)` with `b`. -/
def roundHalfEven (q : ℚ) : ℤ :=
  let f := Rat.floor q
  let twice : ℤ := 2 * (q.num - f * (q.den : ℤ))
  if twice < (q.den : ℤ) then f
  else if (q.den : ℤ) < twice then f + 1
  else if f % 2 = 0 then f else f + 1

/-- Python `round(x, 3)` on the exact rational value. -/
def round3 (q : ℚ) : ℚ :=
  Rat.divInt (roundHalfEven (ratMulInt q 1000)) 1000

/-- Python `s.startswith(pre)`. -/
def strStartsWith (s pre : String) : Bool :=
  pre.data.isPrefixOf s.data

/-- Decidable equality of `Except` results, by constructor. -/
instance {ε α : Type} [DecidableEq ε] [DecidableEq α] : DecidableEq (Except ε α)
  | .error e, .error f =>
    if h : e = f then .isTrue (by rw [h]) else .isFalse (fun hc => h (by cases hc; rfl))
  | .error _, .ok _ => .isFalse (fun hc => Except.noConfusion hc)
  | .ok _, .error _ => .isFalse (fun hc => Except.noConfusion hc)
  | .ok x, .ok y =>
    if h : x = y then .isTrue (by rw [h]) else .isFalse (fun hc => h (by cases hc; rfl))

/-- Model of `tag.get(key)`: the value of an attribute, if present. -/
def attrGet (attrs : List (String × String)) (k : String) : Option String :=
  (attrs.find? (fun a => decide (a.1 = k))).map (fun a => a.2)

/-- One search criterion of `_find_tag`: either a bare tag name (`"a"`) or a
tag name with an attribute-equality filter (`("div", {"id": "content-main"})`).
A tuple whose attribute dictionary is `None` is the same as an empty filter. -/
inductive Step where
  | nameOnly (name : String)
  | withAttrs (name : String) (attrs : List (String × String))

/-- Whether a node satisfies a name-plus-attributes criterion (the matching
bs4 `find` performs at each candidate; text nodes never match a tag name). -/
def matchesStep (name : String) (reqAttrs : List (String × String)) : Node → Bool
  | .text _ => false
  | .tag nm attrs _ =>
    decide (nm = name) && reqAttrs.all (fun kv => decide (attrGet attrs kv.1 = some kv.2))

/-- bs4 `tag.find(...)`: the first descendant, in document order, matching
the criterion. -/
def findNode (p : Node → Bool) (n : Node) : Option Node :=
  n.descendants.find? p

/-- bs4 `tag.find_all(...)`: every descendant, in document order, matching
the criterion. -/
def find_all (p : Node → Bool) (n : Node) : List Node :=
  n.descendants.filter p

/-- One `find` call of the `_find_tag` loop body. -/
def stepFind (n : Node) : Step → Option Node
  | .nameOnly name => findNode (matchesStep name []) n
  | .withAttrs name attrs => findNode (matchesStep name attrs) n

/-- Embedding of `BoltDepot._find_tag`: chained, absence-propagating descendant lookup.
Each iteration requires the current value to be an element before searching
and stops with `None` when a step finds nothing; the final value is returned
only if it is an element. -/
def find_tag : Option Node → List Step → Option Node
  | t, [] =>
    match t with
    | some n => if n.isTag then some n else none
    | none => none
  | t, s :: rest =>
    match t with
    | none => none
    | some n =>
      if n.isTag then
        match stepFind n s with
        | none => none
        | some m => find_tag (some m) rest
      else none

/-- Embedding of `BoltDepot._find_text`: resolve a path with `_find_tag`; a found tag is
always truthy in bs4 (`Tag.__bool__` is `True` even with no contents), so
the source then evaluates `found_tag.contents[0].get_text()` — which raises
`IndexError` when the found tag has no contents — and collapses whitespace;
an unresolved path yields the empty string. -/
def find_text (t : Option Node) (steps : List Step) : Except String String :=
  match find_tag t steps with
  | some found_tag =>
    match found_tag.children with
    | [] => .error "IndexError"
    | c :: _ => .ok (collapseWs (Node.getText c))
  | none => .ok ""

/-- Python `dict` assignment `d[k] = v`: replace the value in place if the
key is present, else append the new binding. -/
def dictInsert {α β : Type} [DecidableEq α] (d : List (α × β)) (k : α) (v : β) :
    List (α × β) :=
  if d.any (fun e => decide (e.1 = k)) then
    d.map (fun e => if e.1 = k then (k, v) else e)
  else d ++ [(k, v)]

/-- Python `d.get(k)` / `d[k]` as a total lookup. -/
def dictLookup {α β : Type} [DecidableEq α] (d : List (α × β)) (k : α) : Option β :=
  (d.find? (fun e => decide (e.1 = k))).map (fun e => e.2)

/-- The part record assembled by `_scrape_api_part` (the `ApiPart` fields it
populates; the class itself lives outside this module). -/
structure ApiPart where
  description : String
  image_url : String
  datasheet_url : String
  supplier_link : String
  SKU : String
  manufacturer : String
  manufacturer_link : String
  MPN : String
  quantity_available : Nat
  packaging : String
  category_path : List String
  parameters : List (String × String)
  price_breaks : List (Int × ℚ)
  currency : String
  barcode : String
deriving DecidableEq

/-- The `DOMAIN` constant of the module. -/
def DOMAIN : String := "boltdepot.com"

/-- The `API_BASE_URL` constant of the module. -/
def API_BASE_URL : String := "https://" ++ DOMAIN ++ "/"

/-- Model of `PRODUCT_URL.format(id)`. -/
def PRODUCT_URL (id : String) : String :=
  API_BASE_URL ++ "Product-Details?product=" ++ id

/-- Model of `BARCODE_URL.format(id)`. -/
def BARCODE_URL (id : String) : String :=
  "http://" ++ DOMAIN ++ "/Product-Details.aspx?product=" ++ id

/-- Embedding of `BoltDepot.is_product_page`: the text of the first link inside the
`content-main` division, lower-cased, must equal "product catalog". -/
def is_product_page (soup : Node) : Except String Bool :=
  match find_text (some soup)
    [Step.withAttrs "div" [("id", "content-main")], Step.nameOnly "a"] with
  | .error e => .error e
  | .ok t => .ok (decide (strToLower t = "product catalog"))

/-- Embedding of `BoltDepot._get_description`: text of the first `h1` in `content-main`. -/
def get_description (content_main : Node) : Except String String :=
  find_text (some content_main) [Step.nameOnly "h1"]

/-- The stoplist `ignore_properties` of `_get_parameters`. -/
def ignore_properties : List String := ["bolt depot", "category", "subcategory"]

/-- The body of the `_get_parameters` row loop: both cell texts are computed
first (each can raise), a row with an empty cell or a stoplisted property
name contributes nothing, any other row contributes its (name, value) pair. -/
def rowEntry (row : Node) : Except String (Option (String × String)) :=
  match find_text (some row) [Step.withAttrs "td" [("class", "property-name")]] with
  | .error e => .error e
  | .ok property_name =>
    match find_text (some row) [Step.withAttrs "td" [("class", "property-value")]] with
    | .error e => .error e
    | .ok property_value =>
      if property_name = "" || property_value = "" then .ok none
      else if ignore_properties.any (fun p => strContains (strToLower property_name) p) then
        .ok none
      else .ok (some (property_name, property_value))

/-- The `for row in product_details_rows` loop of `_get_parameters`,
threading the `parameters` dictionary. -/
def paramsLoop : List Node → List (String × String) → Except String (List (String × String))
  | [], parameters => .ok parameters
  | row :: rest, parameters =>
    match rowEntry row with
    | .error e => .error e
    | .ok none => paramsLoop rest parameters
    | .ok (some (k, v)) => paramsLoop rest (dictInsert parameters k v)

/-- Embedding of `BoltDepot._get_parameters`: harvest (property name, value) rows of the
`product-details-table`, skipping incomplete and stoplisted rows, with
last-write-wins dictionary assignment; an absent or row-less table gives the
empty dictionary. -/
def get_parameters (content_main : Node) : Except String (List (String × String)) :=
  match find_tag (some content_main) [Step.withAttrs "table" [("class", "product-details-table")]] with
  | none => .ok []
  | some product_details_table =>
    let product_details_rows := find_all (matchesStep "tr" []) product_details_table
    if product_details_rows.isEmpty then .ok []
    else paramsLoop product_details_rows []

/-- The body of the `_get_pricing` cell loop: both label texts are computed
first (each can raise); a cell whose labels are non-empty contributes
`lot size ↦ round(price / lot size, 3)` where the lot size is 1 for "/ ea"
and otherwise `int()` of the label after the first two characters with
commas removed, and the price is `float()` of the label after its first
character; a failed parse contributes nothing; a zero lot size raises. -/
def pricingCellEntry (cell : Node) : Except String (Option (Int × ℚ)) :=
  match find_text (some cell) [Step.withAttrs "span" [("class", "price-break")]] with
  | .error e => .error e
  | .ok price_break =>
    match find_text (some cell) [Step.withAttrs "span" [("class", "perQty")]] with
    | .error e => .error e
    | .ok price_per_qty =>
      if price_break = "" || price_per_qty = "" then .ok none
      else
        let qty? : Option Int :=
          if price_per_qty = "/ ea" then some 1
          else pyInt (pyReplaceComma (strDropL price_per_qty 2))
        match qty? with
        | none => .ok none
        | some adjusted_quantity =>
          match pyFloat (strDropL price_break 1) with
          | none => .ok none
          | some purchase_price =>
            if adjusted_quantity = 0 then .error "ZeroDivisionError"
            else .ok (some (adjusted_quantity,
              round3 (ratDivByInt purchase_price adjusted_quantity)))

/-- The `for cell in pricing_cells` loop of `_get_pricing`, threading the
`price_breaks` dictionary. -/
def pricingLoop : List Node → List (Int × ℚ) → Except String (List (Int × ℚ))
  | [], price_breaks => .ok price_breaks
  | cell :: rest, price_breaks =>
    match pricingCellEntry cell with
    | .error e => .error e
    | .ok none => pricingLoop rest price_breaks
    | .ok (some (q, p)) => pricingLoop rest (dictInsert price_breaks q p)

/-- Embedding of `BoltDepot._get_pricing`: locate `product-list-table`, then the row with
id `p{part_id}`, then fold its `td` cells into a price-break dictionary. -/
def get_pricing (content_main : Node) (part_id : String) : Except String (List (Int × ℚ)) :=
  match find_tag (some content_main) [Step.withAttrs "table" [("id", "product-list-table")]] with
  | none => .ok []
  | some pricing_table =>
    match find_tag (some pricing_table) [Step.withAttrs "tr" [("id", "p" ++ part_id)]] with
    | none => .ok []
    | some pricing_row =>
      let pricing_cells := find_all (matchesStep "td" []) pricing_row
      if pricing_cells.isEmpty then .ok []
      else pricingLoop pricing_cells []

/-- Embedding of `BoltDepot._get_image_url`: the `src` attribute of the first image under
the first `div` of class `row`, prefixed with the base URL; empty on any
miss. -/
def get_image_url (content_main : Node) : String :=
  match find_tag (some content_main) [Step.withAttrs "div" [("class", "row")], Step.nameOnly "img"] with
  | none => ""
  | some image_tag =>
    match image_tag with
    | .text _ => ""
    | .tag _ attrs _ =>
      match attrGet attrs "src" with
      | none => ""
      | some url => if url = "" then "" else API_BASE_URL ++ url

/-- The size heuristic regex of `_get_category_path`:
`re.search` with pattern `^(?:[#0-9])|(?:(?:mm|#|inch|\"))` succeeds iff the
text starts with `#` or a digit, or contains `mm`, `#`, `inch` or `"`. -/
def sizeHeuristic (s : String) : Bool :=
  (match s.data with
   | c :: _ => c = '#' || c.isDigit
   | [] => false)
  || strContains s "mm" || strContains s "#" || strContains s "inch" || strContains s "\""

/-- Embedding of `BoltDepot._get_category_path`: collect breadcrumb link texts (skipping
the "product catalog" root entry), then inspect the last element twice —
`category_path[-1]` raises `IndexError` when the list is empty — popping it
when the size heuristic fires and popping the (new) last element when it
starts with "Size: ". -/
def get_category_path (content_main : Node) : Except String (List String) :=
  match find_tag (some content_main) [Step.nameOnly "nav"] with
  | none => .ok []
  | some nav =>
    let nav_a_tags := find_all (matchesStep "a" []) nav
    if nav_a_tags.isEmpty then .ok []
    else
      let category_path := nav_a_tags.foldl (fun acc tag =>
        if strToLower (Node.getText tag) = "product catalog" then acc
        else acc ++ [Node.getText tag]) []
      match category_path.getLast? with
      | none => .error "IndexError"
      | some last₁ =>
        let category_path := if sizeHeuristic last₁ then category_path.dropLast else category_path
        match category_path.getLast? with
        | none => .error "IndexError"
        | some last₂ =>
          .ok (if strStartsWith last₂ "Size: " then category_path.dropLast else category_path)

/-- Embedding of `BoltDepot._scrape_api_part`: assemble the record, returning `none` when
the `content-main` division is missing, the description is empty, or the
category path is empty. -/
def scrape_api_part (soup : Node) (part_id : String) : Except String (Option ApiPart) :=
  match find_tag (some soup) [Step.withAttrs "div" [("id", "content-main")]] with
  | none => .ok none
  | some content_main =>
    match get_description content_main with
    | .error e => .error e
    | .ok description =>
    if description = "" then .ok none
    else
      match get_pricing content_main part_id with
      | .error e => .error e
      | .ok price_breaks =>
      let image_url := get_image_url content_main
      match get_parameters content_main with
      | .error e => .error e
      | .ok parameters =>
      match get_category_path content_main with
      | .error e => .error e
      | .ok category_path =>
      if category_path.length = 0 then .ok none
      else .ok (some {
        description := description
        image_url := image_url
        datasheet_url := ""
        supplier_link := PRODUCT_URL part_id
        SKU := part_id
        manufacturer := "BoltDepot"
        manufacturer_link := PRODUCT_URL part_id
        MPN := part_id
        quantity_available := 0
        packaging := ""
        category_path := category_path
        parameters := parameters
        price_breaks := price_breaks
        currency := "USD"
        barcode := BARCODE_URL part_id })

/-- What `BoltDepot.search` observably produces on one page: the returned
list and count, and whether the "failed to parse found part" warning was
emitted. -/
structure SearchResult where
  parts : List ApiPart
  count : Nat
  warned : Bool
deriving DecidableEq

/-- Embedding of `BoltDepot.search` from the point where the product page was fetched and
parsed: an invalid page gives zero results with no warning; a valid page
that fails to yield a part gives zero results with a warning; otherwise the
single scraped part is returned with count 1. -/
def search (soup : Node) (part_id : String) : Except String SearchResult :=
  match is_product_page soup with
  | .error e => .error e
  | .ok valid =>
    if !valid then .ok ⟨[], 0, false⟩
    else
      match scrape_api_part soup part_id with
      | .error e => .error e
      | .ok none => .ok ⟨[], 0, true⟩
      | .ok (some api_part) => .ok ⟨[api_part], 1, false⟩

/-- A breadcrumb link `<a>s</a>`. -/
def mkLink (s : String) : Node := .tag "a" [] [.text s]

/-- A content region holding a breadcrumb `<nav>` with the given link texts. -/
def mkNav (ts : List String) : Node :=
  .tag "div" [] [.tag "nav" [] (ts.map mkLink)]

/-- A pricing cell: a `td` holding a `price-break` span with text `pb` and a
`perQty` span with text `qty`. -/
def mkCell (pb qty : String) : Node :=
  .tag "td" [] [.tag "span" [("class", "price-break")] [.text pb],
                .tag "span" [("class", "perQty")] [.text qty]]

/-- A content region holding the `product-list-table` with one row, with id
`p{pid}`, holding the given cells. -/
def mkPricingDoc (pid : String) (cells : List Node) : Node :=
  .tag "div" [] [.tag "table" [("id", "product-list-table")]
    [.tag "tr" [("id", "p" ++ pid)] cells]]

/-- A details-table row: a `tr` holding a `property-name` cell with text `n`
and a `property-value` cell with text `v`. -/
def mkParamRow (n v : String) : Node :=
  .tag "tr" [] [.tag "td" [("class", "property-name")] [.text n],
                .tag "td" [("class", "property-value")] [.text v]]

/-- A content region holding the `product-details-table` with the given
(property name, property value) rows. -/
def mkParamsDoc (rows : List (String × String)) : Node :=
  .tag "div" [] [.tag "table" [("class", "product-details-table")]
    (rows.map (fun r => mkParamRow r.1 r.2))]

/-- The breadcrumb texts with the catalog-root sentinel entries removed —
the spec's "drop any entry whose text, lower-cased, equals the catalog-root
sentinel phrase". -/
def catFilter (ts : List String) : List String :=
  ts.filter (fun s => !(strToLower s = "product catalog"))

/-- The spec's first trailing-element check: drop the last element when the
size heuristic fires (identity on the empty sequence). -/
def dropIfSizeLast (l : List String) : List String :=
  match l.getLast? with
  | some last => if sizeHeuristic last then l.dropLast else l
  | none => l

/-- The spec's second trailing-element check: drop the last element when it
starts with the literal prefix "Size: " (identity on the empty sequence). -/
def dropIfSizeTagLast (l : List String) : List String :=
  match l.getLast? with
  | some last => if strStartsWith last "Size: " then l.dropLast else l
  | none => l

/-- The pure content of the `_get_parameters` loop body, as a function of
the two resolved cell texts: a row contributes exactly when both texts are
non-empty and the lower-cased property name avoids the stoplist. -/
def rowEntryPure (n v : String) : Option (String × String) :=
  if n = "" || v = "" then none
  else if ignore_properties.any (fun p => strContains (strToLower n) p) then none
  else some (n, v)

/-- The parameter dictionary built from the rows' cell texts by the
`_get_parameters` loop. -/
def paramsFold (rows : List (String × String)) : List (String × String) :=
  rows.foldl (fun d e =>
    match rowEntryPure e.1 e.2 with
    | none => d
    | some (k, v) => dictInsert d k v) []

/-- A valid product page (root breadcrumb link and a heading) with no `nav`
element, no pricing table and no details table: every optional decoder
degrades and the category path decodes to the empty sequence. -/
def pageNoNav : Node :=
  .tag "html" [] [.tag "div" [("id", "content-main")]
    [.tag "a" [] [.text "Product Catalog"], .tag "h1" [] [.text "Hex bolt"]]]

/-- A page whose `content-main` division exists but whose first link is not
the catalog-root breadcrumb. -/
def pageNotProduct : Node :=
  .tag "html" [] [.tag "div" [("id", "content-main")] [.tag "a" [] [.text "Oops"]]]

/-- A node whose `h1` child resolves but has no content children. -/
def pageEmptyHeading : Node :=
  .tag "div" [] [.tag "h1" [] []]

/-- A pricing cell whose `price-break` span resolves but has no content
children (`<span class="price-break"></span>`). -/
def emptySpanCell : Node :=
  .tag "td" [] [.tag "span" [("class", "price-break")] []]

theorem getText_mkLink (s : String) : Node.getText (mkLink s) = s := by
  simp [mkLink, Node.getText, getTextList, String.append_empty]

theorem find_tag_mkNav (ts : List String) :
    find_tag (some (mkNav ts)) [Step.nameOnly "nav"]
      = some (.tag "nav" [] (ts.map mkLink)) := by
  rfl

theorem filter_subtreeForest_links (ts : List String) :
    (subtreeForest (ts.map mkLink)).filter (matchesStep "a" []) = ts.map mkLink := by
  induction ts with
  | nil => rfl
  | cons s rest ih =>
    simp [subtreeForest, subtreeList, mkLink, List.filter_append, matchesStep, ih,
      List.filter]

theorem find_all_links (ts : List String) :
    find_all (matchesStep "a" []) (.tag "nav" [] (ts.map mkLink)) = ts.map mkLink := by
  simp [find_all, Node.descendants, Node.children, filter_subtreeForest_links]

theorem catLoop_eq_filter (ts : List String) (acc : List String) :
    (ts.map mkLink).foldl (fun acc tag =>
      if strToLower (Node.getText tag) = "product catalog" then acc
      else acc ++ [Node.getText tag]) acc
    = acc ++ catFilter ts := by
  induction ts generalizing acc with
  | nil => simp [catFilter]
  | cons s rest ih =>
    by_cases h : strToLower s = "product catalog"
    · simp [catFilter, List.filter_cons, getText_mkLink, h, ih]
    · simp [catFilter, List.filter_cons, getText_mkLink, h, ih]

theorem get_category_path_mkNav_ok (ts : List String)
    (h1 : catFilter ts ≠ []) (h2 : dropIfSizeLast (catFilter ts) ≠ []) :
    get_category_path (mkNav ts)
      = .ok (dropIfSizeTagLast (dropIfSizeLast (catFilter ts))) := by
  have hts : ts ≠ [] := by
    intro h
    rw [h] at h1
    exact h1 rfl
  have hne : (ts.map mkLink).isEmpty = false := by
    cases ts with
    | nil => exact absurd rfl hts
    | cons t ts' => rfl
  obtain ⟨l₁, hl₁⟩ : ∃ l, (catFilter ts).getLast? = some l := by
    cases hcf : (catFilter ts).getLast? with
    | none => exact absurd (List.getLast?_eq_none_iff.mp hcf) h1
    | some l => exact ⟨l, rfl⟩
  have hd1 : dropIfSizeLast (catFilter ts)
      = if sizeHeuristic l₁ then (catFilter ts).dropLast else catFilter ts := by
    rw [dropIfSizeLast, hl₁]
  obtain ⟨l₂, hl₂⟩ : ∃ l, (dropIfSizeLast (catFilter ts)).getLast? = some l := by
    cases hcf : (dropIfSizeLast (catFilter ts)).getLast? with
    | none => exact absurd (List.getLast?_eq_none_iff.mp hcf) h2
    | some l => exact ⟨l, rfl⟩
  have hd2 : dropIfSizeTagLast (dropIfSizeLast (catFilter ts))
      = if strStartsWith l₂ "Size: " then (dropIfSizeLast (catFilter ts)).dropLast
        else dropIfSizeLast (catFilter ts) := by
    rw [dropIfSizeTagLast, hl₂]
  simp only [get_category_path, find_tag_mkNav, find_all_links, hne,
    Bool.false_eq_true, if_false, catLoop_eq_filter, List.nil_append, hl₁]
  rw [← hd1]
  simp only [hl₂]
  rw [hd2]

theorem find_text_price_break (pb qty : String) :
    find_text (some (mkCell pb qty)) [Step.withAttrs "span" [("class", "price-break")]]
      = .ok (collapseWs pb) := by
  rfl

theorem find_text_perQty (pb qty : String) :
    find_text (some (mkCell pb qty)) [Step.withAttrs "span" [("class", "perQty")]]
      = .ok (collapseWs qty) := by
  rfl

theorem find_tag_pricing_table (pid : String) (cells : List Node) :
    find_tag (some (mkPricingDoc pid cells))
      [Step.withAttrs "table" [("id", "product-list-table")]]
      = some (.tag "table" [("id", "product-list-table")]
          [.tag "tr" [("id", "p" ++ pid)] cells]) := by
  rfl

theorem find_tag_pricing_row (pid : String) (cells : List Node) :
    find_tag (some (Node.tag "table" [("id", "product-list-table")]
        [.tag "tr" [("id", "p" ++ pid)] cells]))
      [Step.withAttrs "tr" [("id", "p" ++ pid)]]
      = some (.tag "tr" [("id", "p" ++ pid)] cells) := by
  simp [find_tag, stepFind, findNode, Node.descendants, Node.children, subtreeForest,
    subtreeList, matchesStep, attrGet, Node.isTag, List.find?]

theorem filter_subtreeForest_cells (cs : List (String × String)) :
    (subtreeForest (cs.map (fun c => mkCell c.1 c.2))).filter (matchesStep "td" [])
      = cs.map (fun c => mkCell c.1 c.2) := by
  induction cs with
  | nil => rfl
  | cons c rest ih =>
    simp only [List.map_cons, subtreeForest, List.filter_append, ih]
    rfl

theorem get_pricing_mkPricingDoc (pid : String) (cs : List (String × String)) :
    get_pricing (mkPricingDoc pid (cs.map (fun c => mkCell c.1 c.2))) pid
      = pricingLoop (cs.map (fun c => mkCell c.1 c.2)) [] := by
  simp only [get_pricing, find_tag_pricing_table, find_tag_pricing_row, find_all,
    Node.descendants, Node.children, filter_subtreeForest_cells]
  cases cs with
  | nil => rfl
  | cons c rest => rfl

theorem find?_insertMap_ne {α β : Type} [DecidableEq α] (d : List (α × β))
    (k k' : α) (v : β) (hne : k' ≠ k) :
    (d.map (fun e => if e.1 = k then (k, v) else e)).find? (fun e => decide (e.1 = k'))
      = d.find? (fun e => decide (e.1 = k')) := by
  induction d with
  | nil => rfl
  | cons a d ih =>
    by_cases ha : a.1 = k
    · rw [List.map_cons, List.find?_cons_of_neg, List.find?_cons_of_neg, ih]
      · simp only [ha, if_pos rfl, decide_eq_true_eq]
        exact fun h => hne h.symm
      · simp only [decide_eq_true_eq, ha]
        exact fun h => hne h.symm
    · by_cases ha' : a.1 = k'
      · simp only [List.map_cons, if_neg ha]
        rw [List.find?_cons_of_pos, List.find?_cons_of_pos] <;> simp [ha']
      · rw [List.map_cons, List.find?_cons_of_neg, List.find?_cons_of_neg, ih] <;>
          simp [ha, ha']

theorem find?_insertMap_self {α β : Type} [DecidableEq α] (d : List (α × β))
    (k : α) (v : β) (hmem : d.any (fun e => decide (e.1 = k)) = true) :
    (d.map (fun e => if e.1 = k then (k, v) else e)).find? (fun e => decide (e.1 = k))
      = some (k, v) := by
  induction d with
  | nil => simp at hmem
  | cons a d ih =>
    by_cases ha : a.1 = k
    · rw [List.map_cons, List.find?_cons_of_pos] <;> simp [ha]
    · simp only [List.any_cons, Bool.or_eq_true, decide_eq_true_eq] at hmem
      rw [List.map_cons, List.find?_cons_of_neg]
      · exact ih (by simpa [ha] using hmem)
      · simp [ha]

theorem find?_none_of_any_false {α β : Type} [DecidableEq α] (d : List (α × β))
    (k : α) (hmem : d.any (fun e => decide (e.1 = k)) = false) :
    d.find? (fun e => decide (e.1 = k)) = none := by
  induction d with
  | nil => rfl
  | cons a d ih =>
    simp only [List.any_cons, Bool.or_eq_false_iff, decide_eq_false_iff_not] at hmem
    rw [List.find?_cons_of_neg, ih (by simp [hmem.2])]
    simp [hmem.1]

theorem dictLookup_dictInsert {α β : Type} [DecidableEq α] (d : List (α × β)) (k k' : α)
    (v : β) :
    dictLookup (dictInsert d k v) k' = if k' = k then some v else dictLookup d k' := by
  cases hany : d.any (fun e => decide (e.1 = k)) with
  | true =>
    by_cases hk : k' = k
    · subst hk
      simp only [dictLookup, dictInsert, hany, if_true, if_pos rfl,
        find?_insertMap_self d k' v hany]
      rfl
    · simp only [dictLookup, dictInsert, hany, if_true,
        find?_insertMap_ne d k k' v hk, if_neg hk]
  | false =>
    by_cases hk : k' = k
    · subst hk
      simp only [dictLookup, dictInsert, hany, Bool.false_eq_true, if_false,
        List.find?_append, find?_none_of_any_false d k' hany, Option.none_or,
        if_pos rfl]
      rw [List.find?_cons_of_pos] <;> simp
    · simp only [dictLookup, dictInsert, hany, Bool.false_eq_true, if_false,
        List.find?_append, if_neg hk]
      have h2 : List.find? (fun e => decide (e.1 = k')) [(k, v)] = none := by
        rw [List.find?_cons_of_neg]
        · rfl
        · simp only [decide_eq_true_eq]
          exact fun h => hk h.symm
      rw [h2, Option.or_none]

theorem dictLookup_foldl_insert {α β : Type} [DecidableEq α]
    (l : List (α × β)) (d : List (α × β)) (k : α) :
    dictLookup (l.foldl (fun d e => dictInsert d e.1 e.2) d) k
      = ((l.reverse.find? (fun e => decide (e.1 = k))).map (fun e => e.2)).or
          (dictLookup d k) := by
  induction l generalizing d with
  | nil => simp
  | cons e l ih =>
    rw [List.foldl_cons, ih, List.reverse_cons, List.find?_append]
    cases hf : l.reverse.find? (fun e => decide (e.1 = k)) with
    | some x => rfl
    | none =>
      simp only [Option.map_none, Option.none_or]
      rw [dictLookup_dictInsert]
      by_cases hk : k = e.1
      · rw [if_pos hk, List.find?_cons_of_pos]
        · rfl
        · simp [hk]
      · rw [if_neg hk, List.find?_cons_of_neg]
        · rfl
        · simp only [decide_eq_true_eq]
          exact fun h => hk h.symm

theorem paramsFold_eq_filterMap_foldl (rows : List (String × String)) :
    paramsFold rows = (rows.filterMap (fun r => rowEntryPure r.1 r.2)).foldl
      (fun d e => dictInsert d e.1 e.2) [] := by
  rw [paramsFold]
  generalize ([] : List (String × String)) = d
  induction rows generalizing d with
  | nil => rfl
  | cons r rows ih =>
    cases hre : rowEntryPure r.1 r.2 with
    | none => simp only [List.foldl_cons, List.filterMap_cons, hre, ih]
    | some b => simp only [List.foldl_cons, List.filterMap_cons, hre, ih]

theorem dictLookup_paramsFold (rows : List (String × String)) (k : String) :
    dictLookup (paramsFold rows) k
      = ((rows.filterMap (fun r => rowEntryPure r.1 r.2)).reverse.find?
          (fun e => decide (e.1 = k))).map (fun e => e.2) := by
  rw [paramsFold_eq_filterMap_foldl, dictLookup_foldl_insert]
  simp [dictLookup]

theorem find_text_property_name (n v : String) :
    find_text (some (mkParamRow n v)) [Step.withAttrs "td" [("class", "property-name")]]
      = .ok (collapseWs n) := by
  rfl

theorem find_text_property_value (n v : String) :
    find_text (some (mkParamRow n v)) [Step.withAttrs "td" [("class", "property-value")]]
      = .ok (collapseWs v) := by
  rfl

theorem rowEntry_mkParamRow (n v : String) :
    rowEntry (mkParamRow n v) = .ok (rowEntryPure (collapseWs n) (collapseWs v)) := by
  simp only [rowEntry, find_text_property_name, find_text_property_value, rowEntryPure]
  split_ifs <;> rfl

theorem filter_subtreeForest_rows (rows : List (String × String)) :
    (subtreeForest (rows.map (fun r => mkParamRow r.1 r.2))).filter (matchesStep "tr" [])
      = rows.map (fun r => mkParamRow r.1 r.2) := by
  induction rows with
  | nil => rfl
  | cons r rest ih =>
    simp only [List.map_cons, subtreeForest, List.filter_append, ih]
    rfl

theorem find_tag_params_table (rows : List (String × String)) :
    find_tag (some (mkParamsDoc rows))
      [Step.withAttrs "table" [("class", "product-details-table")]]
      = some (.tag "table" [("class", "product-details-table")]
          (rows.map (fun r => mkParamRow r.1 r.2))) := by
  rfl

theorem paramsLoop_mkRows (rows : List (String × String))
    (hst : ∀ r ∈ rows, collapseWs r.1 = r.1 ∧ collapseWs r.2 = r.2)
    (d : List (String × String)) :
    paramsLoop (rows.map (fun r => mkParamRow r.1 r.2)) d
      = .ok (rows.foldl (fun d e =>
          match rowEntryPure e.1 e.2 with
          | none => d
          | some (k, v) => dictInsert d k v) d) := by
  induction rows generalizing d with
  | nil => rfl
  | cons r rows ih =>
    obtain ⟨h1, h2⟩ := hst r (by simp)
    have hst' : ∀ r ∈ rows, collapseWs r.1 = r.1 ∧ collapseWs r.2 = r.2 := by
      intro x hx
      exact hst x (by simp [hx])
    simp only [List.map_cons, paramsLoop, rowEntry_mkParamRow, h1, h2, List.foldl_cons]
    cases hre : rowEntryPure r.1 r.2 with
    | none => exact ih hst' d
    | some b =>
      cases b with
      | mk bk bv => exact ih hst' (dictInsert d bk bv)

theorem get_parameters_mkParamsDoc (rows : List (String × String))
    (hst : ∀ r ∈ rows, collapseWs r.1 = r.1 ∧ collapseWs r.2 = r.2) :
    get_parameters (mkParamsDoc rows) = .ok (paramsFold rows) := by
  cases rows with
  | nil => rfl
  | cons r rest =>
    simp only [get_parameters, find_tag_params_table, find_all, Node.descendants,
      Node.children, filter_subtreeForest_rows]
    rw [if_neg (by simp)]
    rw [paramsLoop_mkRows _ hst]
    rfl

theorem scrape_ok_some (soup : Node) (pid : String) (p : ApiPart)
    (h : scrape_api_part soup pid = .ok (some p)) :
    p.description ≠ "" ∧ p.category_path ≠ [] := by
  unfold scrape_api_part at h
  split at h
  · simp at h
  · split at h
    · simp at h
    · split at h
      · simp at h
      · split at h
        · simp at h
        · split at h
          · simp at h
          · split at h
            · simp at h
            · split at h
              · simp at h
              · simp only [Except.ok.injEq, Option.some.injEq] at h
                subst h
                constructor <;> simp_all

theorem string_mk_data (s : String) : String.mk s.data = s := by
  cases s
  rfl

theorem strDropL_append_length (pre s : String) :
    strDropL (pre ++ s) pre.data.length = s := by
  rw [strDropL, String.data_append, List.drop_left, string_mk_data]

theorem strDropL_dollar (s : String) : strDropL ("$" ++ s) 1 = s := by
  simpa using strDropL_append_length "$" s

theorem strDropL_slash_space (s : String) : strDropL ("/ " ++ s) 2 = s := by
  simpa using strDropL_append_length "/ " s

theorem append_ne_empty (pre s : String) (h : pre.data ≠ []) : pre ++ s ≠ "" := by
  intro hc
  apply h
  have hd := congrArg String.data hc
  rw [String.data_append] at hd
  exact List.append_eq_nil.mp hd |>.1

theorem string_append_cancel (pre a b : String) (h : pre ++ a = pre ++ b) : a = b := by
  have hd := congrArg String.data h
  rw [String.data_append, String.data_append] at hd
  have := List.append_cancel_left hd
  cases a with
  | mk da =>
    cases b with
    | mk db => exact congrArg String.mk this

theorem ratDivByInt_eq_div (x : ℚ) (n : ℤ) :
    ratDivByInt x n = x / (n : ℚ) := by
  rw [ratDivByInt, Rat.divInt_eq_div]
  push_cast
  rw [div_mul_eq_div_div, Rat.num_div_den]

theorem pricingCellEntry_ok (pb qty ds : String) (p : ℚ) (q : ℤ)
    (hpb : pb = "$" ++ ds)
    (hpbs : collapseWs pb = pb) (hqs : collapseWs qty = qty)
    (hp : pyFloat ds = some p)
    (hq : (qty = "/ ea" ∧ q = 1) ∨
          (∃ ns, qty = "/ " ++ ns ∧ pyInt (pyReplaceComma ns) = some q))
    (hq0 : q ≠ 0) :
    pricingCellEntry (mkCell pb qty)
      = .ok (some (q, round3 (ratDivByInt p q))) := by
  have hpbne : pb ≠ "" := by
    rw [hpb]
    exact append_ne_empty "$" ds (by decide)
  have hqne : qty ≠ "" := by
    rcases hq with ⟨hqq, _⟩ | ⟨ns, hqq, _⟩ <;> rw [hqq]
    · decide
    · exact append_ne_empty "/ " ns (by decide)
  have hdrop : pyFloat (strDropL pb 1) = some p := by
    rw [hpb, strDropL_dollar, hp]
  simp only [pricingCellEntry, find_text_price_break, find_text_perQty, hpbs, hqs]
  rw [if_neg (by simp [hpbne, hqne])]
  by_cases hqea : qty = "/ ea"
  · rcases hq with ⟨_, hq1⟩ | ⟨ns, hqns, hpyint⟩
    · subst hq1
      rw [if_pos hqea]
      simp only [hdrop]
      rw [if_neg hq0]
    · exfalso
      rw [hqns] at hqea
      have hns : ns = "ea" := string_append_cancel "/ " ns "ea" (by rw [hqea]; rfl)
      rw [hns] at hpyint
      simp [pyReplaceComma, pyInt, pyStrip, isPySpace, digitsVal?] at hpyint
  · rw [if_neg hqea]
    rcases hq with ⟨hqq, _⟩ | ⟨ns, hqns, hpyint⟩
    · exact absurd hqq hqea
    · rw [hqns, strDropL_slash_space, hpyint]
      simp only [hdrop]
      rw [if_neg hq0]

theorem pricingCellEntry_skip (pb qty : String)
    (hpbs : collapseWs pb = pb) (hqs : collapseWs qty = qty)
    (hpbne : pb ≠ "") (hqne : qty ≠ "")
    (hbad : (qty ≠ "/ ea" ∧ pyInt (pyReplaceComma (strDropL qty 2)) = none)
          ∨ pyFloat (strDropL pb 1) = none) :
    pricingCellEntry (mkCell pb qty) = .ok none := by
  simp only [pricingCellEntry, find_text_price_break, find_text_perQty, hpbs, hqs]
  rw [if_neg (by simp [hpbne, hqne])]
  rcases hbad with ⟨hne, hqfail⟩ | hpfail
  · rw [if_neg hne, hqfail]
  · by_cases hqea : qty = "/ ea"
    · rw [if_pos hqea]
      simp only [hpfail]
    · rw [if_neg hqea]
      cases hpi : pyInt (pyReplaceComma (strDropL qty 2)) with
      | none => rfl
      | some n => simp only [hpfail]

/-- C1: the spec requires the trailing-element size checks of
`_get_category_path` to be guarded against an empty sequence, returning the
empty sequence when the breadcrumb holds only the root sentinel.  The code
has no such guard: on a breadcrumb whose only link is "Product Catalog",
every entry is filtered out and `category_path[-1]` raises `IndexError`. -/
theorem c1_only_root_breadcrumb_raises :
    get_category_path (mkNav ["Product Catalog"]) = .error "IndexError" := by
  decide

/-- C2: a pricing cell of the matched row whose price label is a
currency-prefixed decimal `$ds` and whose quantity label is "/ ea" (lot size
1) or "/ N" (N an integer, thousands separators allowed) contributes the
price break `lot size ↦ round(price / lot size, 3)`. -/
theorem c2_price_break_unit_price (pid pb qty ds : String) (p : ℚ) (q : ℤ)
    (hpb : pb = "$" ++ ds)
    (hpbs : collapseWs pb = pb) (hqs : collapseWs qty = qty)
    (hp : pyFloat ds = some p)
    (hq : (qty = "/ ea" ∧ q = 1) ∨
          (∃ ns, qty = "/ " ++ ns ∧ pyInt (pyReplaceComma ns) = some q))
    (hq0 : q ≠ 0) :
    get_pricing (mkPricingDoc pid [mkCell pb qty]) pid
      = .ok [(q, round3 (ratDivByInt p q))]
    ∧ ratDivByInt p q = p / (q : ℚ) := by
  refine ⟨?_, ratDivByInt_eq_div p q⟩
  have hgp : get_pricing (mkPricingDoc pid [mkCell pb qty]) pid
      = pricingLoop [mkCell pb qty] [] := by
    simpa using get_pricing_mkPricingDoc pid [(pb, qty)]
  rw [hgp, pricingLoop, pricingCellEntry_ok pb qty ds p q hpb hpbs hqs hp hq hq0]
  rfl

/-- C2 witness: the cell `$1.23` "/ ea" yields `{1: 1.23}` and the cell
`$12.00` "/ 1,000" yields `{1000: 0.012}`. -/
theorem c2_price_break_unit_price_witness :
    get_pricing (mkPricingDoc "123" [mkCell "$1.23" "/ ea"]) "123"
      = .ok [(1, Rat.divInt 123 100)]
    ∧ get_pricing (mkPricingDoc "123" [mkCell "$12.00" "/ 1,000"]) "123"
      = .ok [(1000, Rat.divInt 12 1000)] := by
  constructor
  · rw [(c2_price_break_unit_price "123" "$1.23" "/ ea" "1.23" (Rat.divInt 123 100) 1
      rfl (by decide) (by decide) (by decide) (Or.inl ⟨rfl, rfl⟩) (by decide)).1]
    decide
  · rw [(c2_price_break_unit_price "123" "$12.00" "/ 1,000" "12.00" (Rat.divInt 12 1) 1000
      rfl (by decide) (by decide) (by decide)
      (Or.inr ⟨"1,000", rfl, by decide⟩) (by decide)).1]
    decide

/-- C3 counterexample: on a resolved node with no content children,
`_find_text` does not return the empty string — `found_tag.contents[0]`
raises `IndexError` (bs4 tags are truthy even when empty). -/
theorem c3_empty_contents_cex :
    find_text (some pageEmptyHeading) [Step.nameOnly "h1"] = .error "IndexError"
    ∧ find_text (some pageEmptyHeading) [Step.nameOnly "h1"] ≠ .ok "" := by
  constructor
  · decide
  · decide

/-- C3 amended: `_find_text` returns the empty string when the path does not
resolve; when it resolves to a node with content children it returns that
node's first content child's text, whitespace-collapsed and trimmed; when it
resolves to a node with no content children an `IndexError` propagates
instead of the empty string. -/
theorem c3_find_text_amended (t : Option Node) (steps : List Step) :
    (find_tag t steps = none → find_text t steps = .ok "")
    ∧ (∀ n c cs, find_tag t steps = some n → n.children = c :: cs →
        find_text t steps = .ok (collapseWs c.getText))
    ∧ (∀ n, find_tag t steps = some n → n.children = [] →
        find_text t steps = .error "IndexError") := by
  refine ⟨?_, ?_, ?_⟩
  · intro h
    simp [find_text, h]
  · intro n c cs hf hc
    simp [find_text, hf, hc]
  · intro n hf hc
    simp [find_text, hf, hc]

/-- C3 witness: a resolved `h1` whose first content child is a text node
yields its collapsed text. -/
theorem c3_find_text_amended_witness :
    find_text (some (Node.tag "div" [] [Node.tag "h1" [] [Node.text "  Hello\n World "]]))
      [Step.nameOnly "h1"] = .ok "Hello World" := by
  have h := (c3_find_text_amended
      (some (Node.tag "div" [] [Node.tag "h1" [] [Node.text "  Hello\n World "]]))
      [Step.nameOnly "h1"]).2.1
    (Node.tag "h1" [] [Node.text "  Hello\n World "])
    (Node.text "  Hello\n World ") [] (by rfl) rfl
  rw [h]
  decide

/-- C4 counterexample: the trailing text "Size: 1/4 inch" does match the
primary size heuristic — it contains the substring "inch" — contrary to the
claim that it does not. -/
theorem c4_size_text_matches_heuristic_cex :
    sizeHeuristic "Size: 1/4 inch" = true := by
  decide

/-- C4 amended: a breadcrumb whose last remaining element is
"Size: 1/4 inch" drops that trailing element, and it is dropped by the
primary size heuristic itself (the text contains "inch"); the "Size: "
prefix check then applies to the preceding element. -/
theorem c4_trailing_size_dropped_amended (ts l : List String)
    (hts : catFilter ts = l ++ ["Size: 1/4 inch"]) (hl : l ≠ []) :
    get_category_path (mkNav ts) = .ok (dropIfSizeTagLast l)
    ∧ sizeHeuristic "Size: 1/4 inch" = true := by
  have h1 : catFilter ts ≠ [] := by
    rw [hts]
    simp
  have hd : dropIfSizeLast (catFilter ts) = l := by
    rw [hts, dropIfSizeLast, List.getLast?_concat]
    simp [show sizeHeuristic "Size: 1/4 inch" = true from by decide, List.dropLast_concat]
  have h2 : dropIfSizeLast (catFilter ts) ≠ [] := by
    rw [hd]
    exact hl
  have h := get_category_path_mkNav_ok ts h1 h2
  rw [hd] at h
  exact ⟨h, by decide⟩

/-- C4 witness: the breadcrumb ["Product Catalog", "Bolts", "Hex Bolts",
"Size: 1/4 inch"] decodes to ["Bolts", "Hex Bolts"]. -/
theorem c4_trailing_size_dropped_amended_witness :
    get_category_path (mkNav ["Product Catalog", "Bolts", "Hex Bolts", "Size: 1/4 inch"])
      = .ok ["Bolts", "Hex Bolts"] := by
  have h := (c4_trailing_size_dropped_amended
      ["Product Catalog", "Bolts", "Hex Bolts", "Size: 1/4 inch"]
      ["Bolts", "Hex Bolts"] (by decide) (by decide)).1
  rw [h]
  decide

/-- C6: `_get_category_path` collects every breadcrumb link text in document
order, omits entries whose lower-cased text is "product catalog", drops the
last element when the size heuristic fires, then drops the (possibly new)
last element when it starts with "Size: " — stated for breadcrumbs on which
the trailing-element inspections find a non-empty sequence (the empty cases
raise, see the C1 result). -/
theorem c6_category_path_pipeline (ts : List String)
    (h1 : catFilter ts ≠ []) (h2 : dropIfSizeLast (catFilter ts) ≠ []) :
    get_category_path (mkNav ts)
      = .ok (dropIfSizeTagLast (dropIfSizeLast (catFilter ts))) :=
  get_category_path_mkNav_ok ts h1 h2

/-- C6 witness: ["Product Catalog", "Bolts", "Hex Bolts", "3mm x 0.5mm"]
decodes to ["Bolts", "Hex Bolts"]. -/
theorem c6_category_path_pipeline_witness :
    get_category_path (mkNav ["Product Catalog", "Bolts", "Hex Bolts", "3mm x 0.5mm"])
      = .ok ["Bolts", "Hex Bolts"] := by
  have h := c6_category_path_pipeline
    ["Product Catalog", "Bolts", "Hex Bolts", "3mm x 0.5mm"] (by decide) (by decide)
  rw [h]
  decide

/-- C7 counterexample: a pricing cell whose `price-break` span resolves but
has no content children makes `_get_pricing` raise `IndexError` rather than
return a mapping — a local decode anomaly that does propagate. -/
theorem c7_empty_span_raises_cex :
    get_pricing (mkPricingDoc "123" [emptySpanCell]) "123" = .error "IndexError" := by
  decide

/-- C7 amended: a cell whose two label texts resolve but fail numeric
parsing (quantity not "/ ea" and not an integer, or price not a decimal
after dropping its first character) is silently skipped and the remaining
cells of the row are still processed; however an anomaly can still escape:
a label span with no content children raises (see the counterexample), so
the decoder does not always return a mapping. -/
theorem c7_malformed_cell_skipped_amended (pid pbBad qtyBad pb qty ds : String)
    (p : ℚ) (q : ℤ)
    (hbs : collapseWs pbBad = pbBad) (hqbs : collapseWs qtyBad = qtyBad)
    (hbne : pbBad ≠ "") (hqbne : qtyBad ≠ "")
    (hbad : (qtyBad ≠ "/ ea" ∧ pyInt (pyReplaceComma (strDropL qtyBad 2)) = none)
          ∨ pyFloat (strDropL pbBad 1) = none)
    (hpb : pb = "$" ++ ds)
    (hpbs : collapseWs pb = pb) (hqs : collapseWs qty = qty)
    (hp : pyFloat ds = some p)
    (hq : (qty = "/ ea" ∧ q = 1) ∨
          (∃ ns, qty = "/ " ++ ns ∧ pyInt (pyReplaceComma ns) = some q))
    (hq0 : q ≠ 0) :
    get_pricing (mkPricingDoc pid [mkCell pbBad qtyBad, mkCell pb qty]) pid
      = .ok [(q, round3 (ratDivByInt p q))] := by
  have hgp : get_pricing (mkPricingDoc pid [mkCell pbBad qtyBad, mkCell pb qty]) pid
      = pricingLoop [mkCell pbBad qtyBad, mkCell pb qty] [] := by
    simpa using get_pricing_mkPricingDoc pid [(pbBad, qtyBad), (pb, qty)]
  rw [hgp, pricingLoop, pricingCellEntry_skip pbBad qtyBad hbs hqbs hbne hqbne hbad,
    pricingLoop, pricingCellEntry_ok pb qty ds p q hpb hpbs hqs hp hq hq0]
  rfl

/-- C7 witness: the malformed cell `$abc` "/ ea" is skipped while the
sibling cell `$1.23` "/ ea" still contributes its price break. -/
theorem c7_malformed_cell_skipped_amended_witness :
    get_pricing (mkPricingDoc "123" [mkCell "$abc" "/ ea", mkCell "$1.23" "/ ea"]) "123"
      = .ok [(1, Rat.divInt 123 100)] := by
  have h := c7_malformed_cell_skipped_amended "123" "$abc" "/ ea" "$1.23" "/ ea" "1.23"
    (Rat.divInt 123 100) 1 (by decide) (by decide) (by decide) (by decide)
    (Or.inr (by decide)) rfl (by decide) (by decide) (by decide)
    (Or.inl ⟨rfl, rfl⟩) (by decide)
  rw [h]
  decide

/-- C5: every record returned by `search` has a non-empty description and a
non-empty category path; and on a page that passed validation, a description
decoding to empty — or, with the other decoders succeeding, a category path
decoding to empty — yields zero results with the warning flag set. -/
theorem c5_record_field_invariants (soup : Node) (pid : String) :
    (∀ res part, search soup pid = .ok res → part ∈ res.parts →
        part.description ≠ "" ∧ part.category_path ≠ [])
    ∧ (∀ cm, is_product_page soup = .ok true →
        find_tag (some soup) [Step.withAttrs "div" [("id", "content-main")]] = some cm →
        ((get_description cm = .ok "" → search soup pid = .ok ⟨[], 0, true⟩)
         ∧ (∀ d pb pa, get_description cm = .ok d → d ≠ "" →
              get_pricing cm pid = .ok pb → get_parameters cm = .ok pa →
              get_category_path cm = .ok [] →
              search soup pid = .ok ⟨[], 0, true⟩))) := by
  constructor
  · intro res part hres hmem
    unfold search at hres
    split at hres
    · simp at hres
    · split at hres
      · simp only [Except.ok.injEq] at hres
        subst hres
        simp at hmem
      · split at hres
        · simp at hres
        · simp only [Except.ok.injEq] at hres
          subst hres
          simp at hmem
        · rename_i p hscrape
          simp only [Except.ok.injEq] at hres
          subst hres
          simp only [List.mem_singleton] at hmem
          subst hmem
          exact scrape_ok_some soup pid part hscrape
  · intro cm hvalid hcm
    constructor
    · intro hdesc
      have hscrape : scrape_api_part soup pid = .ok none := by
        unfold scrape_api_part
        simp [hcm, hdesc]
      unfold search
      rw [hvalid]
      simp [hscrape]
    · intro d pb pa hd hdne hpb hpa hcp
      have hscrape : scrape_api_part soup pid = .ok none := by
        unfold scrape_api_part
        simp [hcm, hd, hpb, hpa, hcp, hdne]
      unfold search
      rw [hvalid]
      simp [hscrape]

/-- C5 witness: a validated page with a heading but no `nav` element decodes
an empty category path, and `search` returns zero results with a warning. -/
theorem c5_record_field_invariants_witness :
    search pageNoNav "123" = .ok ⟨[], 0, true⟩ := by
  have h := ((c5_record_field_invariants pageNoNav "123").2
      (Node.tag "div" [("id", "content-main")]
        [Node.tag "a" [] [Node.text "Product Catalog"],
         Node.tag "h1" [] [Node.text "Hex bolt"]])
      (by decide) rfl).2 "Hex bolt" [] [] rfl (by decide) rfl rfl rfl
  exact h

/-- C8: a row of the details table contributes to the mapping exactly when
both cell texts are non-empty and the lower-cased property name contains
none of "bolt depot", "category", "subcategory" (`rowEntryPure`); the value
found for a key is the one of the last contributing row with that name; an
absent table yields the empty mapping rather than an error. -/
theorem c8_parameters_mapping (rows : List (String × String))
    (hst : ∀ r ∈ rows, collapseWs r.1 = r.1 ∧ collapseWs r.2 = r.2) :
    get_parameters (mkParamsDoc rows) = .ok (paramsFold rows)
    ∧ (∀ k, dictLookup (paramsFold rows) k
        = ((rows.filterMap (fun r => rowEntryPure r.1 r.2)).reverse.find?
            (fun e => decide (e.1 = k))).map (fun e => e.2))
    ∧ get_parameters (Node.tag "div" [] []) = .ok [] :=
  ⟨get_parameters_mkParamsDoc rows hst,
   fun k => dictLookup_paramsFold rows k, rfl⟩

/-- C8 witness: stoplisted, incomplete and duplicate rows on a concrete
table — the last "Diameter" row wins, "Category" and "Bolt Depot #" rows
are dropped. -/
theorem c8_parameters_mapping_witness :
    get_parameters (mkParamsDoc
        [("Diameter", "5mm"), ("Category", "Bolts"), ("Bolt Depot #", "91230"),
         ("", "x"), ("Diameter", "6mm")])
      = .ok [("Diameter", "6mm")]
    ∧ dictLookup (paramsFold
        [("Diameter", "5mm"), ("Category", "Bolts"), ("Bolt Depot #", "91230"),
         ("", "x"), ("Diameter", "6mm")]) "Category" = none := by
  have h := c8_parameters_mapping
    [("Diameter", "5mm"), ("Category", "Bolts"), ("Bolt Depot #", "91230"),
     ("", "x"), ("Diameter", "6mm")] (by decide)
  constructor
  · rw [h.1]
    decide
  · rw [h.2.1 "Category"]
    decide

/-- C9: when the first link text inside `content-main` resolves and its
lower-cased text differs from "product catalog", `search` returns zero
results with no warning; and, given that resolved text, the validator
returns false exactly when the text differs from the sentinel. -/
theorem c9_not_product_page_no_warning (soup : Node) (pid s : String)
    (h : find_text (some soup)
      [Step.withAttrs "div" [("id", "content-main")], Step.nameOnly "a"] = .ok s) :
    (strToLower s ≠ "product catalog" → search soup pid = .ok ⟨[], 0, false⟩)
    ∧ (is_product_page soup = .ok false ↔ strToLower s ≠ "product catalog") := by
  have hip : is_product_page soup = .ok (decide (strToLower s = "product catalog")) := by
    unfold is_product_page
    rw [h]
  constructor
  · intro hne
    unfold search
    rw [hip, decide_eq_false hne]
    rfl
  · rw [hip]
    constructor
    · intro hf hs
      rw [decide_eq_true hs] at hf
      simp at hf
    · intro hne
      rw [decide_eq_false hne]

/-- C9 witness: a page whose first `content-main` link reads "Oops" is
rejected with no warning. -/
theorem c9_not_product_page_no_warning_witness :
    search pageNotProduct "123" = .ok ⟨[], 0, false⟩ := by
  exact (c9_not_product_page_no_warning pageNotProduct "123" "Oops" rfl).1 (by decide)

/-- C10: the price label is decoded by unconditionally dropping its first
character: the label "1.23" (no "$" prefix) with quantity "/ ea" is not
skipped but contributes `1 ↦ 0.23` (`float(".23") = 0.23`). -/
theorem c10_price_first_char_dropped :
    get_pricing (mkPricingDoc "123" [mkCell "1.23" "/ ea"]) "123"
      = .ok [(1, Rat.divInt 23 100)] := by
  decide

end BoltDepot
